import Mathlib

/-!
Verification of the FoodShare pre-commit security gate (Rust sources under
src/scripts/lefthook and src/tools) against its natural-language specification.
The Rust code is shallowly embedded: file reading becomes an explicit
map from paths to optional contents, the staged diff is a plain string, and
each regular expression of the source is translated into an executable
character-list matcher with the same semantics (noted at each matcher).
-/

/-! ## Generic character and string helpers (regex and Rust string semantics) -/

/-- Whitespace characters recognised by the regex class backslash-s, restricted to
ASCII (the scanned inputs are source text; the literals used here are ASCII). -/
def wsChars : List Char := [' ', '\t', '\n', '\x0b', '\x0c', '\r']

def isRegexWs (c : Char) : Bool := wsChars.contains c

/-- Word characters of the regex class backslash-w (ASCII). -/
def isWordChar (c : Char) : Bool := c.isAlphanum || c = '_'

/-- Match a literal character sequence at the head of the input, returning the rest. -/
def matchLit : List Char → List Char → Option (List Char)
  | [], rest => some rest
  | _ :: _, [] => none
  | p :: ps, c :: cs => if p = c then matchLit ps cs else none

/-- Does the predicate hold of some suffix of the input?  Used to realise an
unanchored regex search: the match may begin at any position. -/
def anyStart (p : List Char → Bool) : List Char → Bool
  | [] => p []
  | c :: cs => p (c :: cs) || anyStart p cs

/-- Realises a regex segment dot-star followed by a continuation: some split point
is reachable without crossing a newline (the regex dot does not match newline)
at which the continuation matches. -/
def seekNoNl (p : List Char → Bool) : List Char → Bool
  | [] => p []
  | c :: cs => p (c :: cs) || (c ≠ '\n' && seekNoNl p cs)

/-- Rust str::contains for a literal pattern: the pattern occurs as a substring. -/
def strContains (hay pat : String) : Bool :=
  anyStart (fun l => (matchLit pat.toList l).isSome) hay.toList

/-- Rust str::starts_with for a literal pattern. -/
def strStartsWith (s pre : String) : Bool :=
  (matchLit pre.toList s.toList).isSome

/-- Rust str::ends_with for a literal pattern. -/
def strEndsWith (s suf : String) : Bool :=
  (matchLit suf.toList.reverse s.toList.reverse).isSome

/-- Lower-case a string character by character (the embedded case-insensitive
patterns are ASCII, where this agrees with Rust to_lowercase). -/
def strToLower (s : String) : String :=
  String.mk (s.toList.map Char.toLower)

def emptyStr : String := ""
def plusLit : String := "+"

/-- Split a character sequence at every newline (the separators are consumed). -/
def splitNl : List Char → List (List Char)
  | [] => [[]]
  | c :: cs =>
    if c = '\n' then [] :: splitNl cs
    else
      match splitNl cs with
      | h :: t => (c :: h) :: t
      | [] => [[c]]

/-- Drop one trailing carriage return. -/
def stripTrailingCr (l : List Char) : List Char :=
  match l.getLast? with
  | some c => if c = '\r' then l.dropLast else l
  | none => l

/-- Rust str::lines: split on newline, drop the trailing empty segment produced by a
final line terminator, and strip one trailing carriage return from each line. -/
def rustLines (s : String) : List String :=
  let parts := splitNl s.toList
  let parts := match parts.getLast? with
    | some last => if last.isEmpty then parts.dropLast else parts
    | none => parts
  parts.map fun l => String.mk (stripTrailingCr l)

/-! ## utils.rs -/

/-- utils.rs filter_files_by_extension (lines 94-100). -/
def filter_files_by_extension (files : List String) (extensions : List String) : List String :=
  files.filter fun f => extensions.any fun ext => strEndsWith f ext

def testDotLit : String := ".test."
def specDotLit : String := ".spec."

/-- utils.rs is_test_file (lines 102-104). -/
def is_test_file (file : String) : Bool :=
  strContains file testDotLit || strContains file specDotLit

/-! ## Data model of nextjs_security.rs -/

/-- Security issue severity (nextjs_security.rs lines 20-26). -/
inductive Severity where
  | critical
  | high
  | medium
  | low
deriving DecidableEq

/-- SecurityIssue record (nextjs_security.rs lines 28-33). -/
structure SecurityIssue where
  severity : Severity
  file : String
  message : String
  owasp : Option String
deriving DecidableEq

/-- Count of Critical findings (print_summary, nextjs_security.rs line 1650). -/
def criticalCount (issues : List SecurityIssue) : Nat :=
  (issues.filter fun i => decide (i.severity = Severity.critical)).length

/-- Count of High findings (print_summary, line 1651). -/
def highCount (issues : List SecurityIssue) : Nat :=
  (issues.filter fun i => decide (i.severity = Severity.high)).length

/-- Count of Medium findings (print_summary, line 1652). -/
def mediumCount (issues : List SecurityIssue) : Nat :=
  (issues.filter fun i => decide (i.severity = Severity.medium)).length

/-- Count of Low findings (print_summary, line 1653). -/
def lowCount (issues : List SecurityIssue) : Nat :=
  (issues.filter fun i => decide (i.severity = Severity.low)).length

def summaryFailLit : String := "Security vulnerabilities detected"

/-- Gate decision of print_summary (nextjs_security.rs lines 1700-1713): error when
critical or high findings exist, otherwise success (three distinct Ok branches
for medium, low and clean runs, mirrored as written). -/
def print_summary (issues : List SecurityIssue) : Except String Unit :=
  if 0 < criticalCount issues ∨ 0 < highCount issues then
    Except.error summaryFailLit
  else if 0 < mediumCount issues then
    Except.ok ()
  else if 0 < lowCount issues then
    Except.ok ()
  else
    Except.ok ()

/-- Result::is_ok, as consulted by main.rs line 110. -/
def resultIsOk (r : Except String Unit) : Bool :=
  match r with
  | Except.ok _ => true
  | Except.error _ => false

/-- Process exit code of main.rs line 110: zero on Ok, one on Err. -/
def mainExitCode (r : Except String Unit) : Nat :=
  if resultIsOk r then 0 else 1

/-! ## Claim C1 -/

/-- Claim C1: the gate decision is a function of the severity tally only: the scan
outcome is Fail exactly when the count of Critical findings or the count of High
findings is positive (error, exit code 1), every other case succeeds with exit
code 0 (including Medium or Low findings present), and the decision is invariant
under reordering of the findings list. -/
theorem gate_fails_iff_critical_or_high (issues l2 : List SecurityIssue) :
    ((print_summary issues = Except.error summaryFailLit)
        ↔ (0 < criticalCount issues ∨ 0 < highCount issues))
    ∧ (mainExitCode (print_summary issues) = 0
        ↔ ¬ (0 < criticalCount issues ∨ 0 < highCount issues))
    ∧ (List.Perm issues l2 → print_summary issues = print_summary l2) := by
  refine ⟨?_, ?_, ?_⟩
  · by_cases h : 0 < criticalCount issues ∨ 0 < highCount issues <;>
      simp [print_summary, h]
  · by_cases h : 0 < criticalCount issues ∨ 0 < highCount issues <;>
      simp [print_summary, mainExitCode, resultIsOk, h]
  · intro hperm
    have hc : criticalCount issues = criticalCount l2 :=
      (hperm.filter _).length_eq
    have hh : highCount issues = highCount l2 :=
      (hperm.filter _).length_eq
    have hm : mediumCount issues = mediumCount l2 :=
      (hperm.filter _).length_eq
    have hl : lowCount issues = lowCount l2 :=
      (hperm.filter _).length_eq
    simp [print_summary, hc, hh, hm, hl]

def fileALit : String := "a.ts"
def msgALit : String := "sample"

/-- Witness for C1 at concrete inputs: a single Medium finding passes with exit
code 0, and a permuted two-element findings list yields the same decision. -/
theorem gate_fails_iff_critical_or_high_witness :
    (mainExitCode (print_summary [⟨Severity.medium, fileALit, msgALit, none⟩]) = 0)
    ∧ print_summary
        [⟨Severity.medium, fileALit, msgALit, none⟩,
         ⟨Severity.low, fileALit, msgALit, none⟩]
      = print_summary
        [⟨Severity.low, fileALit, msgALit, none⟩,
         ⟨Severity.medium, fileALit, msgALit, none⟩] := by
  refine ⟨?_, ?_⟩
  · have h := (gate_fails_iff_critical_or_high
      [⟨Severity.medium, fileALit, msgALit, none⟩] []).2.1
    exact h.mpr (by decide)
  · exact (gate_fails_iff_critical_or_high
      [⟨Severity.medium, fileALit, msgALit, none⟩,
       ⟨Severity.low, fileALit, msgALit, none⟩]
      [⟨Severity.low, fileALit, msgALit, none⟩,
       ⟨Severity.medium, fileALit, msgALit, none⟩]).2.2 (by decide)

/-! ## Regex matchers of check_injection_vulnerabilities (nextjs_security.rs 185-250)

Each Rust regex literal is translated into an executable matcher with the same
semantics over the scanned text: an unanchored search (anyStart), greedy classes
that are forced deterministic because the literal that follows is excluded from
the class, and dot-star segments realised by seekNoNl. -/

def interpOpen : String := "$\x7b"
def braceClose : String := "\x7d"
def braceCloseBracket : String := "\x7d]"

def backtickChar : Char := Char.ofNat 96
def qSingle : Char := Char.ofNat 39
def qDouble : Char := Char.ofNat 34

/-- Quote class of the regex fragment [backtick-quote-doublequote]. -/
def quotesBSQ : List Char := [backtickChar, qSingle, qDouble]

/-- Quote class of the regex fragment [quote-doublequote]. -/
def quotesSQ : List Char := [qSingle, qDouble]

/-- Tail matcher for the regex fragment dot-star dollar-brace dot-star brace. -/
def dotStarDollarBrace (l : List Char) : Bool :=
  seekNoNl (fun r => match matchLit interpOpen.toList r with
    | some r2 => seekNoNl (fun r3 => (matchLit braceClose.toList r3).isSome) r2
    | none => false) l

/-- Tail matcher for the regex fragment dot-star plus backslash-s-star (the
trailing whitespace star always matches the empty string). -/
def dotStarPlus (l : List Char) : Bool :=
  seekNoNl (fun r => match r with
    | c :: _ => c = '+'
    | [] => false) l

/-- Common shape NAME backslash-s-star open-paren backslash-s-star QUOTE TAIL of the
injection regexes. -/
def callQuoted (name : List Char) (quotes : List Char) (tail : List Char → Bool)
    (l : List Char) : Bool :=
  match matchLit name l with
  | some r =>
    let r2 := r.dropWhile isRegexWs
    match r2 with
    | '(' :: r3 =>
      let r4 := r3.dropWhile isRegexWs
      match r4 with
      | q :: r5 => quotes.contains q && tail r5
      | [] => false
    | _ => false
  | none => false

def rawLit : String := ".raw"
def executeLit : String := "execute"
def queryLit : String := "query"
def execLit : String := "exec"
def execSyncLit : String := "execSync"
def spawnLit : String := "spawn"
def childProcessLit : String := "child_process"

/-- Consume characters up to and including the first comma. -/
def skipToComma : List Char → Option (List Char)
  | [] => none
  | c :: r => if c = ',' then some r else skipToComma r

/-- Matcher for the spawn command-injection regex (nextjs_security.rs line 198):
spawn, whitespace, open paren, one or more non-comma characters, comma,
whitespace, open bracket, dot-star, dollar-brace, dot-star, brace, bracket. -/
def spawnInterpAt (l : List Char) : Bool :=
  match matchLit spawnLit.toList l with
  | some r =>
    let r2 := r.dropWhile isRegexWs
    match r2 with
    | '(' :: r3 =>
      (match r3 with
       | [] => false
       | c :: r4 =>
         if c = ',' then false
         else match skipToComma r4 with
           | some r5 =>
             let r6 := r5.dropWhile isRegexWs
             match r6 with
             | '[' :: r7 =>
               seekNoNl (fun r8 => match matchLit interpOpen.toList r8 with
                 | some r9 =>
                   seekNoNl (fun r10 => (matchLit braceCloseBracket.toList r10).isSome) r9
                 | none => false) r7
             | _ => false
           | none => false)
    | _ => false
  | none => false

/-- SQL-injection patterns of nextjs_security.rs lines 187-192, matcher and message. -/
def sql_injection_patterns : List ((String → Bool) × String) :=
  [(fun content => anyStart (callQuoted rawLit.toList quotesBSQ dotStarDollarBrace) content.toList,
    "SQL injection via raw query with template literal"),
   (fun content => anyStart (callQuoted rawLit.toList quotesSQ dotStarPlus) content.toList,
    "SQL injection via string concatenation in raw query"),
   (fun content => anyStart (callQuoted executeLit.toList quotesBSQ dotStarDollarBrace) content.toList,
    "SQL injection in execute statement"),
   (fun content => anyStart (callQuoted queryLit.toList quotesBSQ dotStarDollarBrace) content.toList,
    "SQL injection in query with interpolation")]

/-- Command-injection patterns of nextjs_security.rs lines 195-200. -/
def cmd_injection_patterns : List ((String → Bool) × String) :=
  [(fun content => anyStart (callQuoted execLit.toList quotesBSQ dotStarDollarBrace) content.toList,
    "Command injection via exec()"),
   (fun content => anyStart (callQuoted execSyncLit.toList quotesBSQ dotStarDollarBrace) content.toList,
    "Command injection via execSync()"),
   (fun content => anyStart spawnInterpAt content.toList,
    "Command injection via spawn()"),
   (fun content => strContains content childProcessLit,
    "child_process import - ensure no user input in commands")]

def owaspA03 : String := "A03:2021"
def owaspA07 : String := "A07:2021"
def diffSentinel : String := "diff"

/-- Findings that the per-file loop of check_injection_vulnerabilities (lines
202-230) pushes for one readable file. -/
def injectionFileIssues (file content : String) : List SecurityIssue :=
  (sql_injection_patterns.filterMap fun pm =>
    if pm.1 content then some ⟨Severity.critical, file, pm.2, some owaspA03⟩ else none)
  ++ (cmd_injection_patterns.filterMap fun pm =>
    if pm.1 content then some ⟨Severity.critical, file, pm.2, some owaspA03⟩ else none)

def sqlKeywords5 : List String := ["SELECT", "INSERT", "UPDATE", "DELETE", "DROP"]
def sqlKeywords4 : List String := ["SELECT", "INSERT", "UPDATE", "DELETE"]
def userTokens : List String := ["req", "params", "query", "body"]

/-- Does one of the literals occur at the head of the input? -/
def keywordHere (kws : List String) (l : List Char) : Bool :=
  kws.any fun k => (matchLit k.toList l).isSome

/-- Matcher for the diff regex at nextjs_security.rs line 234: dollar-brace,
dot-star, brace, dot-star, SQL keyword. -/
def injDiffP1 (line : String) : Bool :=
  anyStart (fun l => match matchLit interpOpen.toList l with
    | some r => seekNoNl (fun r2 => match matchLit braceClose.toList r2 with
        | some r3 => seekNoNl (keywordHere sqlKeywords5) r3
        | none => false) r
    | none => false) line.toList

/-- Matcher for the diff regex at nextjs_security.rs line 235: SQL keyword,
dot-star, plus, whitespace-star, user-input token. -/
def injDiffP2 (line : String) : Bool :=
  anyStart (fun l => sqlKeywords4.any fun k =>
    match matchLit k.toList l with
    | some r => seekNoNl (fun r2 => match r2 with
        | c :: r3 => c = '+' && keywordHere userTokens (r3.dropWhile isRegexWs)
        | [] => false) r
    | none => false) line.toList

/-- Diff patterns of nextjs_security.rs lines 233-236. -/
def injection_diff_patterns : List ((String → Bool) × String) :=
  [(injDiffP1, "Potential SQL injection in new code"),
   (injDiffP2, "SQL with user input concatenation")]

/-- Lines the diff loops iterate over: diff.lines().filter(starts_with plus), as
written at nextjs_security.rs lines 240, 297, 356, 502, 579, 752, 839, ... -/
def diffAddedLineCandidates (diff : String) : List String :=
  (rustLines diff).filter fun l => strStartsWith l plusLit

/-- check_injection_vulnerabilities (nextjs_security.rs lines 185-250): the
per-file loop over readable files followed by the diff-pattern loop. -/
def check_injection_vulnerabilities (files : List String) (fs : String → Option String)
    (diff : String) : List SecurityIssue :=
  (files.flatMap fun file => match fs file with
    | some content => injectionFileIssues file content
    | none => [])
  ++ (injection_diff_patterns.filterMap fun pm =>
      if (diffAddedLineCandidates diff).any (fun l => pm.1 l) then
        some ⟨Severity.critical, diffSentinel, pm.2, some owaspA03⟩
      else none)

/-! ## check_xss_vulnerabilities (nextjs_security.rs 256-307) -/

def dangerousPat : String := "dangerouslySetInnerHTML"

/-- Alternatives of the case-insensitive mitigating regex at line 258, lowered. -/
def sanitizeLits : List String := ["dompurify", "sanitize", "xss", "escape"]

def dangerousMatches (content : String) : Bool := strContains content dangerousPat

/-- Mitigating matcher of line 258: case-insensitive search for one of the
sanitizer literals (realised by lowering the haystack, the literals being ASCII). -/
def sanitizeMatches (content : String) : Bool :=
  sanitizeLits.any fun lit => strContains (strToLower content) lit

def innerHtmlLit : String := ".innerHTML"
def docWriteLit : String := "document.write"
def tsxExt : String := ".tsx"
def jsxExt : String := ".jsx"
def dangerMsg : String := "dangerouslySetInnerHTML without sanitization library"
def innerHtmlMsg : String := "innerHTML assignment without sanitization"
def docWriteMsg : String := "document.write() is XSS-prone - avoid usage"
def jsHrefMsg : String := "javascript: protocol in href - XSS vulnerability"

/-- Findings the body of check_xss_vulnerabilities pushes for one readable
tsx or jsx file (lines 262-291). -/
def xssFileIssues (file content : String) : List SecurityIssue :=
  (if dangerousMatches content && !sanitizeMatches content then
    [⟨Severity.critical, file, dangerMsg, some owaspA07⟩] else [])
  ++ (if strContains content innerHtmlLit && !sanitizeMatches content then
    [⟨Severity.critical, file, innerHtmlMsg, some owaspA07⟩] else [])
  ++ (if strContains content docWriteLit then
    [⟨Severity.high, file, docWriteMsg, some owaspA07⟩] else [])

def hrefLit : String := "href"
def jsProtoLit : String := "javascript:"

/-- Matcher for the regex at nextjs_security.rs line 296: href, whitespace-star,
equals, whitespace-star, optional quote, whitespace-star, the literal javascript
protocol. Deterministic because a quote is neither whitespace nor the letter j. -/
def jsHrefAt (l : List Char) : Bool :=
  match matchLit hrefLit.toList l with
  | some r =>
    let r2 := r.dropWhile isRegexWs
    match r2 with
    | c :: r3 =>
      if c = '=' then
        let r4 := r3.dropWhile isRegexWs
        let r5 := match r4 with
          | q :: rest => if quotesBSQ.contains q then rest else r4
          | [] => r4
        (matchLit jsProtoLit.toList (r5.dropWhile isRegexWs)).isSome
      else false
    | [] => false
  | none => false

def jsHrefMatches (line : String) : Bool := anyStart jsHrefAt line.toList

/-- check_xss_vulnerabilities (nextjs_security.rs lines 256-307): the per-file
loop over tsx and jsx files followed by the javascript-href diff loop, which
pushes one finding per matching line. -/
def check_xss_vulnerabilities (files : List String) (fs : String → Option String)
    (diff : String) : List SecurityIssue :=
  (files.flatMap fun file =>
    if strEndsWith file tsxExt || strEndsWith file jsxExt then
      match fs file with
      | some content => xssFileIssues file content
      | none => []
    else [])
  ++ ((diffAddedLineCandidates diff).filterMap fun line =>
      if jsHrefMatches line then
        some ⟨Severity.critical, diffSentinel, jsHrefMsg, some owaspA07⟩
      else none)

/-! ## check_supply_chain (nextjs_security.rs 686-773) -/

def owaspA06 : String := "A06:2021"

/-- Lock-file names of nextjs_security.rs line 688. -/
def lock_files : List String := ["package-lock.json", "yarn.lock", "pnpm-lock.yaml"]

def lockFileMsg : String :=
  "Lock file modified - verify dependency changes are intentional"

/-- Lock-file loop of lines 690-698: a Low finding pushed from the candidate path
alone — this rule never reads the file. -/
def lockFileIssues (file : String) : List SecurityIssue :=
  if lock_files.any (fun lf => strEndsWith file lf) then
    [⟨Severity.low, file, lockFileMsg, some owaspA06⟩]
  else []

/-- Typosquatting pairs of lines 702-712. -/
def typosquat_patterns : List (String × String) :=
  [("loadsh", "lodash"), ("axois", "axios"), ("recat", "react"),
   ("expresss", "express"), ("momment", "moment"), ("requets", "requests"),
   ("coffe-script", "coffee-script"), ("cross-env-", "cross-env"),
   ("event-stream-", "event-stream")]

/-- Packages with known incidents, lines 729-735. -/
def malicious_packages : List String :=
  ["event-stream", "flatmap-stream", "ua-parser-js", "coa", "rc"]

def qSingleStr : String := String.mk [qSingle]
def qDoubleStr : String := String.mk [qDouble]

/-- Message built by the format call at line 722 (single quotes spelled as
characters). -/
def typosquatMsg (typo correct : String) : String :=
  "Potential typosquatting: " ++ qSingleStr ++ typo ++ qSingleStr
    ++ " - did you mean " ++ qSingleStr ++ correct ++ qSingleStr ++ "?"

/-- Message built by the format call at line 742. -/
def maliciousPkgMsg (pkg : String) : String :=
  "Package " ++ qSingleStr ++ pkg ++ qSingleStr
    ++ " has known security incidents - verify version"

def packageJsonLit : String := "package.json"

/-- Findings of the package.json body, lines 716-747: typosquat names by plain
substring, known-incident packages as a double-quoted substring. -/
def packageJsonIssues (file content : String) : List SecurityIssue :=
  (typosquat_patterns.filterMap fun tc =>
    if strContains content tc.1 then
      some ⟨Severity.critical, file, typosquatMsg tc.1 tc.2, some owaspA06⟩
    else none)
  ++ (malicious_packages.filterMap fun pkg =>
    if strContains content (qDoubleStr ++ pkg ++ qDoubleStr) then
      some ⟨Severity.high, file, maliciousPkgMsg pkg, some owaspA06⟩
    else none)

def githubDepLit : String := "github:"
def gitPlusLit : String := "git+"
def gitProtoLit : String := "git://"
def httpLit : String := "http://"
def localhostLit : String := "localhost"
def gitDepMsg : String := "Git-based dependency added - prefer npm registry packages"
def httpDepMsg : String := "HTTP dependency URL - use HTTPS only"

/-- Per-line findings of the diff loop, lines 752-772 (both conditions checked on
every added-line candidate, no break). -/
def supplyChainDiffIssues (line : String) : List SecurityIssue :=
  (if strContains line githubDepLit || strContains line gitPlusLit
      || strContains line gitProtoLit then
    [⟨Severity.medium, diffSentinel, gitDepMsg, some owaspA06⟩]
  else [])
  ++ (if strContains line httpLit && !strContains line localhostLit then
    [⟨Severity.high, diffSentinel, httpDepMsg, some owaspA06⟩]
  else [])

/-- check_supply_chain (nextjs_security.rs lines 686-773): the path-keyed
lock-file loop, the read-guarded package.json loop, and the diff loop. -/
def check_supply_chain (files : List String) (fs : String → Option String)
    (diff : String) : List SecurityIssue :=
  (files.flatMap fun file => lockFileIssues file)
  ++ (files.flatMap fun file =>
    if strEndsWith file packageJsonLit then
      match fs file with
      | some content => packageJsonIssues file content
      | none => []
    else [])
  ++ ((diffAddedLineCandidates diff).flatMap fun line => supplyChainDiffIssues line)

/-! ## The scanner entry point run (nextjs_security.rs 35-179) -/

def nextjsExts : List String :=
  [".ts", ".tsx", ".js", ".jsx", ".json", ".env", ".mjs", ".cjs"]

/-- run of nextjs_security.rs (lines 35-179): fall back to filtered staged files,
return success straight away on an empty candidate list, otherwise accumulate the
check passes into one issues list and gate it with print_summary.  The embedding
carries three of the passes, in their source order: the injection and XSS passes
the claims reference, and check_supply_chain, whose lock-file rule is the one
rule of the whole scanner that emits a finding from the candidate path alone
without reading the file.  Every remaining pass of the source reads files only
behind the same if-let-Ok guard, attributes its file findings to the file it
read and its diff findings to the diff sentinel, and appends to the same list
gated by the same print_summary call. -/
def nextjs_security_run (files staged : List String) (fs : String → Option String)
    (diff : String) : Except String Unit × List SecurityIssue :=
  let files := if files.isEmpty then filter_files_by_extension staged nextjsExts else files
  if files.isEmpty then (Except.ok (), [])
  else
    let issues := check_injection_vulnerabilities files fs diff
      ++ check_xss_vulnerabilities files fs diff
      ++ check_supply_chain files fs diff
    (print_summary issues, issues)

/-! ## File-read trace of the scanner

The source has no content store: every check pass calls fs::read_to_string
itself.  The traces below record, in order, the paths passed to
fs::read_to_string by the two embedded passes of run; the subsequent passes of
the source (lines 71-173) issue further reads of the same paths in the same
per-pass style, so the full trace of run extends this one. -/

/-- Paths read by check_injection_vulnerabilities (line 203): one read attempt per
candidate file. -/
def check_injection_reads (files : List String) : List String :=
  files.flatMap fun file => [file]

/-- Paths read by check_xss_vulnerabilities (line 262): one read attempt per
candidate tsx or jsx file. -/
def check_xss_reads (files : List String) : List String :=
  files.flatMap fun file =>
    if strEndsWith file tsxExt || strEndsWith file jsxExt then [file] else []

/-- Reads performed by the first two check passes of run (lines 59 and 65), a
prefix of the read trace of the whole invocation. -/
def scanReadTracePrefix (files : List String) : List String :=
  check_injection_reads files ++ check_xss_reads files

/-! ## The per-rule compilation step of check_injection_vulnerabilities

At nextjs_security.rs lines 204-228 every rule is evaluated through
if-let-Ok on Regex::new: the compilation outcome of a pattern is Some matcher
when the pattern is structurally valid and None when it fails to compile, and
the None case falls through silently. -/

/-- One rule as the per-rule loop sees it: the outcome of compiling its pattern,
and its message. -/
structure CompiledRule where
  compiled : Option (String → Bool)
  message : String

/-- The rule loop of check_injection_vulnerabilities lines 204-215 (the loop at
lines 217-228 is identical): a rule whose pattern did not compile is skipped
with no finding and no abort, all other rules are matched against the content. -/
def evalCompiledRules (rules : List CompiledRule) (sev : Severity) (owasp : Option String)
    (file content : String) : List SecurityIssue :=
  rules.flatMap fun r =>
    match r.compiled with
    | some m => if m content then [⟨sev, file, r.message, owasp⟩] else []
    | none => []

/-! ## Regex matchers of security.rs (lines 37-148)

All diff patterns of security.rs are anchored as caret-plus dot-star followed by
the interesting alternation; over a single line this is: the line starts with a
plus and the alternation occurs somewhere in it (the alternation cannot sit at
position zero, which holds the plus). -/

def isAZ09 (c : Char) : Bool := c.isUpper || c.isDigit
def isJwtChar (c : Char) : Bool := c.isAlphanum || c = '_' || c = '-'
def isSlackChar (c : Char) : Bool := c.isAlphanum || c = '-'
def isApiValChar (c : Char) : Bool :=
  c.isAlphanum || c = '_' || c = '-' || c = '+' || c = '/'

def akiaLit : String := "AKIA"
def awsKeyIdLit : String := "aws_access_key_id"
def awsSecretLit : String := "aws_secret_access_key"

/-- AKIA followed by sixteen characters of the class digit-or-upper (line 37). -/
def akiaAt (l : List Char) : Bool :=
  match matchLit akiaLit.toList l with
  | some r => decide ((r.take 16).length = 16) && (r.take 16).all isAZ09
  | none => false

/-- aws_pattern of security.rs line 37. -/
def aws_pattern (line : String) : Bool :=
  strStartsWith line plusLit &&
    (anyStart akiaAt line.toList
      || strContains line awsKeyIdLit || strContains line awsSecretLit)

def privateKeyLits : List String :=
  ["BEGIN RSA PRIVATE KEY", "BEGIN DSA PRIVATE KEY", "BEGIN EC PRIVATE KEY",
   "BEGIN OPENSSH PRIVATE KEY", "BEGIN PGP PRIVATE KEY"]

/-- private_key_pattern of security.rs line 48 (the inner alternation expanded). -/
def private_key_pattern (line : String) : Bool :=
  strStartsWith line plusLit && privateKeyLits.any fun lit => strContains line lit

def apiLit : String := "api"
def keyLit : String := "key"
def accessLit : String := "access"
def secretLit : String := "secret"
def passwordLit : String := "password"
def tokenLit : String := "token"

/-- Matcher for BASE, an optional underscore or hyphen, then the word key. -/
def matchSepKey (base : String) (l : List Char) : Option (List Char) :=
  match matchLit base.toList l with
  | some r =>
    match r with
    | c :: rest =>
      if c = '_' || c = '-' then matchLit keyLit.toList rest
      else matchLit keyLit.toList r
    | [] => none
  | none => none

/-- Keyword alternation of the hardcoded-secret regex (line 58), over a lowered
line; at most one alternative can match at a given position. -/
def matchApiKeyword (l : List Char) : Option (List Char) :=
  match matchSepKey apiLit l with
  | some r => some r
  | none =>
    match matchLit secretLit.toList l with
    | some r => some r
    | none =>
      match matchLit passwordLit.toList l with
      | some r => some r
      | none =>
        match matchLit tokenLit.toList l with
        | some r => some r
        | none => matchSepKey accessLit l

/-- Tail of the hardcoded-secret regex after the keyword: optional quote,
whitespace, colon or equals, whitespace, quote, sixteen or more value-class
characters, quote.  Deterministic: quotes are not in the value class. -/
def apiKeyTail (l : List Char) : Bool :=
  let r := match l with
    | c :: rest => if c = qDouble || c = qSingle then rest else c :: rest
    | [] => []
  let r := r.dropWhile isRegexWs
  match r with
  | c :: rest =>
    if c = ':' || c = '=' then
      let rest := rest.dropWhile isRegexWs
      match rest with
      | q :: rest2 =>
        (q = qDouble || q = qSingle) &&
          (let v := rest2.takeWhile isApiValChar
           decide (16 ≤ v.length) &&
             (match rest2.drop v.length with
              | q2 :: _ => q2 = qDouble || q2 = qSingle
              | [] => false))
      | [] => false
    else false
  | [] => false

/-- api_key_pattern of security.rs line 58 (case-insensitive: matched on the
lowered line, all non-letter parts of the pattern being case-stable). -/
def api_key_pattern (line : String) : Bool :=
  let lc := strToLower line
  strStartsWith lc plusLit &&
    anyStart (fun l => match matchApiKeyword l with
      | some r => apiKeyTail r
      | none => false) lc.toList

def eyJLit : String := "eyJ"

/-- Matcher for the JWT regex body (line 86): eyJ, token characters, a dot, eyJ,
token characters, a dot.  Deterministic: the dot is not a token character. -/
def jwtAt (l : List Char) : Bool :=
  match matchLit eyJLit.toList l with
  | some r =>
    (match r.dropWhile isJwtChar with
     | c :: r2 =>
       c = '.' &&
         (match matchLit eyJLit.toList r2 with
          | some r3 =>
            (match r3.dropWhile isJwtChar with
             | c2 :: _ => c2 = '.'
             | [] => false)
          | none => false)
     | [] => false)
  | none => false

/-- jwt_pattern of security.rs line 86. -/
def jwt_pattern (line : String) : Bool :=
  strStartsWith line plusLit && anyStart jwtAt line.toList

def xoxLit : String := "xox"
def slackTypeChars : List Char := ['b', 'a', 'p', 'r', 's']

/-- Matcher for the Slack token regex body (line 94). -/
def slackAt (l : List Char) : Bool :=
  match matchLit xoxLit.toList l with
  | some (c :: r) =>
    slackTypeChars.contains c &&
      (match r with
       | d :: r2 =>
         d = '-' &&
           (match r2 with
            | e :: _ => isSlackChar e
            | [] => false)
       | [] => false)
  | _ => false

/-- slack_pattern of security.rs line 94. -/
def slack_pattern (line : String) : Bool :=
  strStartsWith line plusLit && anyStart slackAt line.toList

def skLit : String := "sk_"
def pkLit : String := "pk_"
def testULit : String := "test_"
def liveULit : String := "live_"

/-- Matcher for the Stripe key regex body (line 101): sk or pk, underscore, test
or live, underscore, twenty-four or more alphanumerics. -/
def stripeAt (l : List Char) : Bool :=
  match (match matchLit skLit.toList l with
         | some r => some r
         | none => matchLit pkLit.toList l) with
  | some r =>
    (match (match matchLit testULit.toList r with
            | some r2 => some r2
            | none => matchLit liveULit.toList r) with
     | some r2 => decide (24 ≤ (r2.takeWhile Char.isAlphanum).length)
     | none => false)
  | none => false

/-- stripe_pattern of security.rs line 101. -/
def stripe_pattern (line : String) : Bool :=
  strStartsWith line plusLit && anyStart stripeAt line.toList

def dbSchemes : List String := ["postgres", "mysql", "mongodb"]
def schemeSepLit : String := "://"

/-- Matcher for the database-URL regex body (line 108): scheme, separator, one or
more non-colon characters, colon, one or more non-at characters, at sign.
Deterministic: each negated class excludes exactly the delimiter that follows. -/
def dbUrlAt (l : List Char) : Bool :=
  dbSchemes.any fun sch =>
    match matchLit sch.toList l with
    | some r =>
      (match matchLit schemeSepLit.toList r with
       | some r2 =>
         let user := r2.takeWhile fun c => c ≠ ':'
         !user.isEmpty &&
           (match r2.drop user.length with
            | c :: r3 =>
              c = ':' &&
                (let pw := r3.takeWhile fun c => c ≠ '@'
                 !pw.isEmpty &&
                   (match r3.drop pw.length with
                    | d :: _ => d = '@'
                    | [] => false))
            | [] => false)
       | none => false)
    | none => false

/-- db_url_pattern of security.rs line 108. -/
def db_url_pattern (line : String) : Bool :=
  strStartsWith line plusLit && anyStart dbUrlAt line.toList

def debuggerLit : String := "debugger"

/-- Scan for the word debugger behind a slash-free region, carrying the previous
character to decide the left word boundary; the right boundary is the character
after the match or the end of the line. -/
def debuggerScan (prev : Char) : List Char → Bool
  | [] => false
  | c :: cs =>
    (match matchLit debuggerLit.toList (c :: cs) with
     | some r =>
       !isWordChar prev &&
         (match r with
          | d :: _ => !isWordChar d
          | [] => true)
     | none => false)
    || (c ≠ '/' && debuggerScan c cs)

/-- debugger_pattern of security.rs line 134: caret, plus, a slash-free region,
then the word debugger between word boundaries. -/
def debugger_pattern (line : String) : Bool :=
  match line.toList with
  | c :: rest => c = '+' && debuggerScan c rest
  | [] => false

def consoleLogLit : String := "console.log"
def consoleDebugLit : String := "console.debug"

/-- console_pattern of security.rs line 143. -/
def console_pattern (line : String) : Bool :=
  strStartsWith line plusLit &&
    (strContains line consoleLogLit || strContains line consoleDebugLit)

/-- count_matches of security.rs lines 172-185: lines where the pattern matches
and no exclude substring occurs. -/
def count_matches (text : String) (pattern : String → Bool)
    (excludes : Option (List String)) : Nat :=
  ((rustLines text).filter fun line =>
    if !pattern line then false
    else
      match excludes with
      | some excl => !excl.any fun e => strContains line e
      | none => true).length

/-! ## security.rs run (lines 8-170) -/

def securityExts : List String :=
  [".ts", ".tsx", ".js", ".jsx", ".json", ".env", ".yml", ".yaml"]

/-- Candidate files of security.rs lines 11-18: the argument list, or the staged
files filtered by extension when the argument list is empty. -/
def security_candidate_files (files staged : List String) : List String :=
  if files.isEmpty then filter_files_by_extension staged securityExts else files

/-- Files the check scans after dropping test files (security.rs lines 21-24). -/
def security_scanned_files (files staged : List String) : List String :=
  (security_candidate_files files staged).filter fun f => !is_test_file f

def awsExcludes : List String := ["import.meta.env", "process.env"]
def apiKeyExcludes : List String :=
  ["import.meta.env", "process.env", "VITE_", "example", "placeholder",
   "your_", "xxx", "test"]
def exampleExcludes : List String := ["example"]
def dbExcludes : List String := ["example", "localhost"]
def commentExcludes : List String := ["//", "/*"]
def consoleExcludes : List String := ["//", "/*", "logger"]

def envLit : String := ".env"
def exampleSuffixLit : String := ".example"
def nodeModulesLit : String := "node_modules/"

/-- Sensitive-file loop of security.rs lines 117-130: the first staged file that
is a non-example env file or lies under node_modules adds one error and breaks,
so the error contribution is this indicator. -/
def sensitiveFileStaged (staged : List String) : Bool :=
  staged.any fun file =>
    (strStartsWith file envLit && !strEndsWith file exampleSuffixLit)
      || strContains file nodeModulesLit

def securityFailLit : String := "Security check failed"

/-- run of security.rs (lines 8-170).  The second component records whether the
staged diff was retrieved (line 31), which happens exactly when the early return
on an empty scanned-file list (lines 26-29) is not taken.  Each diff check adds
one error or warning when its count is positive; the summary fails exactly when
an error was counted. -/
def security_run (files staged : List String) (diff : String) :
    Except String Unit × Bool :=
  let scanned := security_scanned_files files staged
  if scanned.isEmpty then (Except.ok (), false)
  else
    let errors :=
      (if 0 < count_matches diff aws_pattern (some awsExcludes) then 1 else 0)
      + (if 0 < count_matches diff private_key_pattern none then 1 else 0)
      + (if 0 < count_matches diff api_key_pattern (some apiKeyExcludes) then 1 else 0)
      + (if 0 < count_matches diff jwt_pattern (some exampleExcludes) then 1 else 0)
      + (if 0 < count_matches diff slack_pattern (some exampleExcludes) then 1 else 0)
      + (if 0 < count_matches diff stripe_pattern (some exampleExcludes) then 1 else 0)
      + (if sensitiveFileStaged staged then 1 else 0)
      + (if 0 < count_matches diff debugger_pattern (some commentExcludes) then 1 else 0)
    let warnings :=
      (if 0 < count_matches diff db_url_pattern (some dbExcludes) then 1 else 0)
      + (if 0 < count_matches diff console_pattern (some consoleExcludes) then 1 else 0)
    (if errors = 0 ∧ warnings = 0 then Except.ok ()
     else if errors = 0 then Except.ok ()
     else Except.error securityFailLit, true)

/-! ## no_console.rs and pre_commit.rs -/

def tsJsExts : List String := [".ts", ".tsx", ".js", ".jsx"]
def supabaseFnDir : String := "supabase/functions/"
def consoleStmtLits : List String :=
  ["console.log", "console.debug", "console.info", "console.warn", "console.error"]

/-- Console detection of no_console.rs lines 19-48: skip test files and Supabase
edge functions, flag any readable file with a matching line (the alternation of
the regex at line 16 expanded into its five literals). -/
def no_console_has_console (files : List String) (fs : String → Option String) : Bool :=
  files.any fun file =>
    if is_test_file file then false
    else if strStartsWith file supabaseFnDir then false
    else
      match fs file with
      | some content =>
        (rustLines content).any fun line =>
          consoleStmtLits.any fun lit => strContains line lit
      | none => false

/-- run of no_console.rs (lines 6-60): both exit paths return Ok; the console
scan result only selects which message is printed. -/
def no_console_run (files : List String) (fs : String → Option String) :
    Except String Unit :=
  let fl := filter_files_by_extension files tsJsExts
  if fl.isEmpty then Except.ok ()
  else
    let _hc := no_console_has_console fl fs
    Except.ok ()

def preCommitFailLit : String := "Pre-commit checks failed"

/-- Effective file list of pre_commit.rs lines 8-12. -/
def pre_commit_files (files staged : List String) : List String :=
  if files.isEmpty then staged else files

/-- run of pre_commit.rs (lines 5-58): failed is set by the security and the
Next.js security checks only.  The complexity, no-console and import-check
results are bound to underscore and discarded by the source (lines 35-45); they
enter here as opaque parameters precisely to record that the outcome cannot
depend on them. -/
def pre_commit_run (files staged : List String) (fs : String → Option String)
    (diff : String)
    (_complexityResult _noConsoleResult _importResult : Except String Unit) :
    Except String Unit :=
  let files := pre_commit_files files staged
  if files.isEmpty then Except.ok ()
  else
    let ts_files := filter_files_by_extension files tsJsExts
    let failed := !resultIsOk (security_run files staged diff).1
      || !resultIsOk (nextjs_security_run ts_files staged fs diff).1
    if failed then Except.error preCommitFailLit else Except.ok ()

/-! ## Concrete inputs used by witnesses and counterexamples -/

/-- File system on which every read fails. -/
def readNone : String → Option String := fun _ => none

def tsxPathLit : String := "a.tsx"
def testFileLit : String := "a.test.ts"

/-- Unified diff whose only plus-prefixed line is the +++ file header, the header
text matching the javascript-href diff rule. -/
def headerOnlyDiff : String :=
  "--- a/h.tsx\n+++ b/href=javascript:x.tsx\n@@ -1 +0,0 @@\n-old"

def headerLineLit : String := "+++ b/href=javascript:x.tsx"

/-- Unified diff whose only plus-prefixed line is the +++ file header, the header
text matching the AWS-credential diff rule of security.rs. -/
def awsHeaderDiff : String :=
  "--- a/k.ts\n+++ b/aws_secret_access_key.ts\n@@ -1 +0,0 @@\n-x"

def bothLit : String := "dangerouslySetInnerHTML and DOMPurify"
def dangerOnlyLit : String := "uses dangerouslySetInnerHTML only"

/-! ## Helper lemmas on the file field of produced findings -/

theorem mem_injectionFileIssues_file {i : SecurityIssue} {file content : String}
    (h : i ∈ injectionFileIssues file content) : i.file = file := by
  simp only [injectionFileIssues, List.mem_append, List.mem_filterMap] at h
  rcases h with ⟨pm, -, hpm⟩ | ⟨pm, -, hpm⟩ <;>
    · split at hpm
      · simp only [Option.some.injEq] at hpm
        subst hpm
        rfl
      · exact absurd hpm (by simp)

theorem mem_xssFileIssues_file {i : SecurityIssue} {file content : String}
    (h : i ∈ xssFileIssues file content) : i.file = file := by
  simp only [xssFileIssues, List.mem_append] at h
  rcases h with (h | h) | h <;> split at h <;> simp_all

theorem check_injection_filter_unreadable (fs : String → Option String)
    (diff p : String) (hu : fs p = none) (hd : p ≠ diffSentinel)
    (files : List String) :
    (check_injection_vulnerabilities files fs diff).filter (fun i => i.file == p) = [] := by
  rw [List.filter_eq_nil_iff]
  intro i hi
  simp only [check_injection_vulnerabilities, List.mem_append, List.mem_flatMap,
    List.mem_filterMap] at hi
  rcases hi with ⟨f, hf, hif⟩ | ⟨pm, hpm, hif⟩
  · rcases hfs : fs f with - | content
    · rw [hfs] at hif
      simp at hif
    · rw [hfs] at hif
      have hfile := mem_injectionFileIssues_file hif
      have hne : f ≠ p := by
        intro he
        rw [he, hu] at hfs
        cases hfs
      simp [hfile, hne]
  · split at hif
    · simp only [Option.some.injEq] at hif
      subst hif
      simp [hd.symm]
    · exact absurd hif (by simp)

theorem check_xss_filter_unreadable (fs : String → Option String)
    (diff p : String) (hu : fs p = none) (hd : p ≠ diffSentinel)
    (files : List String) :
    (check_xss_vulnerabilities files fs diff).filter (fun i => i.file == p) = [] := by
  rw [List.filter_eq_nil_iff]
  intro i hi
  simp only [check_xss_vulnerabilities, List.mem_append, List.mem_flatMap,
    List.mem_filterMap] at hi
  rcases hi with ⟨f, hf, hif⟩ | ⟨line, hline, hif⟩
  · split at hif
    · rcases hfs : fs f with - | content
      · rw [hfs] at hif
        simp at hif
      · rw [hfs] at hif
        have hfile := mem_xssFileIssues_file hif
        have hne : f ≠ p := by
          intro he
          rw [he, hu] at hfs
          cases hfs
        simp [hfile, hne]
    · simp at hif
  · split at hif
    · simp only [Option.some.injEq] at hif
      subst hif
      simp [hd.symm]
    · exact absurd hif (by simp)

theorem mem_lockFileIssues {i : SecurityIssue} {file : String}
    (h : i ∈ lockFileIssues file) :
    i.file = file ∧ lock_files.any (fun lf => strEndsWith file lf) = true := by
  simp only [lockFileIssues] at h
  split at h <;> simp_all

theorem mem_packageJsonIssues_file {i : SecurityIssue} {file content : String}
    (h : i ∈ packageJsonIssues file content) : i.file = file := by
  simp only [packageJsonIssues, List.mem_append, List.mem_filterMap] at h
  rcases h with ⟨tc, -, htc⟩ | ⟨pkg, -, hpkg⟩
  · split at htc
    · simp only [Option.some.injEq] at htc
      subst htc
      rfl
    · exact absurd htc (by simp)
  · split at hpkg
    · simp only [Option.some.injEq] at hpkg
      subst hpkg
      rfl
    · exact absurd hpkg (by simp)

theorem mem_supplyChainDiffIssues_file {i : SecurityIssue} {line : String}
    (h : i ∈ supplyChainDiffIssues line) : i.file = diffSentinel := by
  simp only [supplyChainDiffIssues, List.mem_append] at h
  rcases h with h | h <;> split at h <;> simp_all

theorem check_supply_chain_filter_unreadable (fs : String → Option String)
    (diff p : String) (hu : fs p = none) (hd : p ≠ diffSentinel)
    (hl : lock_files.any (fun lf => strEndsWith p lf) = false)
    (files : List String) :
    (check_supply_chain files fs diff).filter (fun i => i.file == p) = [] := by
  rw [List.filter_eq_nil_iff]
  intro i hi
  simp only [check_supply_chain, List.mem_append, List.mem_flatMap] at hi
  rcases hi with (⟨f, hf, hif⟩ | ⟨f, hf, hif⟩) | ⟨line, hline, hif⟩
  · obtain ⟨hfile, hcond⟩ := mem_lockFileIssues hif
    have hne : f ≠ p := by
      intro he
      rw [he] at hcond
      rw [hl] at hcond
      simp at hcond
    simp [hfile, hne]
  · split at hif
    · rcases hfs : fs f with - | content
      · rw [hfs] at hif
        simp at hif
      · rw [hfs] at hif
        have hfile := mem_packageJsonIssues_file hif
        have hne : f ≠ p := by
          intro he
          rw [he, hu] at hfs
          cases hfs
        simp [hfile, hne]
    · simp at hif
  · have hfile := mem_supplyChainDiffIssues_file hif
    simp [hfile, hd.symm]

/-! ## Claim C2 -/

/-- Claim C2 (falsified by the code): diff scanning does not exclude the +++ file
header.  On a diff whose only plus-prefixed line is the header, the header line
is among the scanned candidates, the XSS diff loop emits a Critical finding from
it, count_matches of security.rs counts it for the AWS rule, and the whole basic
security check fails — where the claim requires zero findings. -/
theorem diff_header_line_is_scanned :
    diffAddedLineCandidates headerOnlyDiff = [headerLineLit]
    ∧ check_xss_vulnerabilities [] readNone headerOnlyDiff
        = [⟨Severity.critical, diffSentinel, jsHrefMsg, some owaspA07⟩]
    ∧ count_matches awsHeaderDiff aws_pattern (some awsExcludes) = 1
    ∧ security_run [fileALit] [] awsHeaderDiff = (Except.error securityFailLit, true) := by
  exact ⟨by decide, by decide, by decide, rfl⟩

/-! ## Claim C3 -/

/-- Claim C3: for the rules of check_xss_vulnerabilities that carry the mitigating
sanitizer matcher, a content matching both the dangerous pattern and the
mitigating pattern produces no finding for that rule, and a content matching the
dangerous pattern with the mitigating pattern absent produces exactly one
finding for that rule (stated for the dangerouslySetInnerHTML rule and the
innerHTML rule). -/
theorem mitigating_matcher_suppresses_finding (file content : String) :
    (dangerousMatches content = true → sanitizeMatches content = true →
      (xssFileIssues file content).filter (fun i => i.message == dangerMsg) = [])
    ∧ (dangerousMatches content = true → sanitizeMatches content = false →
      (xssFileIssues file content).filter (fun i => i.message == dangerMsg)
        = [⟨Severity.critical, file, dangerMsg, some owaspA07⟩])
    ∧ (strContains content innerHtmlLit = true → sanitizeMatches content = true →
      (xssFileIssues file content).filter (fun i => i.message == innerHtmlMsg) = [])
    ∧ (strContains content innerHtmlLit = true → sanitizeMatches content = false →
      (xssFileIssues file content).filter (fun i => i.message == innerHtmlMsg)
        = [⟨Severity.critical, file, innerHtmlMsg, some owaspA07⟩]) := by
  refine ⟨?_, ?_, ?_, ?_⟩ <;> intro h1 h2 <;>
    (simp [xssFileIssues, h1, h2, List.filter_append, dangerMsg, innerHtmlMsg, docWriteMsg];
     try (split <;> simp [dangerMsg, innerHtmlMsg, docWriteMsg]))

/-- Witness for C3 at concrete inputs: a tsx content holding both the dangerous
call and a sanitizer yields no finding for the rule, and the same content with
the sanitizer removed yields exactly the one finding. -/
theorem mitigating_matcher_suppresses_finding_witness :
    (xssFileIssues tsxPathLit bothLit).filter (fun i => i.message == dangerMsg) = []
    ∧ (xssFileIssues tsxPathLit dangerOnlyLit).filter (fun i => i.message == dangerMsg)
        = [⟨Severity.critical, tsxPathLit, dangerMsg, some owaspA07⟩] := by
  constructor
  · exact (mitigating_matcher_suppresses_finding tsxPathLit bothLit).1
      (by decide) (by decide)
  · exact (mitigating_matcher_suppresses_finding tsxPathLit dangerOnlyLit).2.1
      (by decide) (by decide)

/-! ## Claim C4 -/

theorem check_injection_reads_eq (files : List String) :
    check_injection_reads files = files := by
  simp [check_injection_reads]

/-- Claim C4 counterexample: with one candidate tsx file, already the first two
check passes of a single invocation read the same path twice; the content is not
read at most once, and the second evaluation re-reads the file instead of using
a cache. -/
theorem file_read_twice_counterexample :
    ((scanReadTracePrefix [tsxPathLit]).filter (fun q => q == tsxPathLit)).length = 2
    ∧ ¬ (((scanReadTracePrefix [tsxPathLit]).filter (fun q => q == tsxPathLit)).length ≤ 1) :=
  ⟨by decide, by decide⟩

/-- Claim C4 amended: there is no content cache — each check pass performs its own
reads: the injection pass reads every candidate exactly once, the XSS pass reads
every tsx or jsx candidate again, and the read count of a path accumulates
across the passes of one invocation instead of being capped at one. -/
theorem reads_accumulate_per_pass (files : List String) (p : String) :
    check_injection_reads files = files
    ∧ ((scanReadTracePrefix files).filter (fun q => q == p)).length
      = (files.filter (fun q => q == p)).length
        + ((check_xss_reads files).filter (fun q => q == p)).length := by
  refine ⟨check_injection_reads_eq files, ?_⟩
  simp [scanReadTracePrefix, List.filter_append, check_injection_reads_eq files]

/-! ## Claim C5 -/

def invalidRule : CompiledRule := { compiled := none, message := "invalid pattern rule" }

def childRule : CompiledRule :=
  { compiled := some fun c => strContains c childProcessLit,
    message := "child rule" }

def childContentLit : String := "uses child_process api"

/-- Claim C5 counterexample: a rule list containing a rule whose pattern failed to
compile is still scanned — evaluation completes normally, the invalid rule is
silently dropped, and the surviving rule still produces its finding, so scanning
does proceed with a partially valid rule set, which the claim says never
happens. -/
theorem invalid_rule_scanning_proceeds :
    evalCompiledRules [invalidRule, childRule] Severity.critical (some owaspA03)
        fileALit childContentLit
      = [⟨Severity.critical, fileALit, childRule.message, some owaspA03⟩]
    ∧ evalCompiledRules [invalidRule, childRule] Severity.critical (some owaspA03)
        fileALit childContentLit
      = evalCompiledRules [childRule] Severity.critical (some owaspA03)
        fileALit childContentLit :=
  ⟨rfl, rfl⟩

/-- Claim C5 amended: in the Next.js scanner a rule whose pattern fails to compile
is silently skipped by the if-let-Ok guard — no finding, no abort — and scanning
proceeds with the remaining rules; a fail-fast abort exists only at the sites
that unwrap the compiled pattern (for example security.rs lines 37-39, whose
fixed literal patterns are all valid). -/
theorem invalid_rule_silently_skipped (rules : List CompiledRule) (r : CompiledRule)
    (sev : Severity) (owasp : Option String) (file content : String)
    (h : r.compiled = none) :
    evalCompiledRules (r :: rules) sev owasp file content
      = evalCompiledRules rules sev owasp file content := by
  simp [evalCompiledRules, h]

/-- Witness for the amended C5 at concrete inputs. -/
theorem invalid_rule_silently_skipped_witness :
    evalCompiledRules [invalidRule, childRule] Severity.critical (some owaspA03)
        fileALit childContentLit
      = evalCompiledRules [childRule] Severity.critical (some owaspA03)
        fileALit childContentLit :=
  invalid_rule_silently_skipped [childRule] invalidRule Severity.critical (some owaspA03)
    fileALit childContentLit rfl

/-! ## Claim C6 -/

/-- Case split on the two exits of the scanner entry point. -/
theorem nextjs_run_issues (files staged : List String) (fs : String → Option String)
    (diff : String) :
    (nextjs_security_run files staged fs diff).2 = []
    ∨ ∃ fl, (nextjs_security_run files staged fs diff).2
        = check_injection_vulnerabilities fl fs diff
          ++ check_xss_vulnerabilities fl fs diff
          ++ check_supply_chain fl fs diff := by
  by_cases he : (if files.isEmpty then filter_files_by_extension staged nextjsExts
      else files).isEmpty
  all_goals simp only [List.isEmpty_iff] at he
  · left
    simp [nextjs_security_run, he]
  · right
    refine ⟨if files.isEmpty then filter_files_by_extension staged nextjsExts else files, ?_⟩
    simp only [List.isEmpty_iff]
    simp [nextjs_security_run, he]

def lockPathLit : String := "package-lock.json"

/-- Claim C6 counterexample: an unreadable candidate lock file still receives a
finding attributed to its path — the lock-file rule of check_supply_chain
(nextjs_security.rs lines 690-698) fires from the path alone, never reading the
file — so an unreadable candidate does not always yield zero findings for that
path. -/
theorem unreadable_lockfile_still_flagged :
    (nextjs_security_run [lockPathLit] [] readNone emptyStr).2.filter
        (fun i => i.file == lockPathLit)
      = [⟨Severity.low, lockPathLit, lockFileMsg, some owaspA06⟩]
    ∧ ¬ ((nextjs_security_run [lockPathLit] [] readNone emptyStr).2.filter
        (fun i => i.file == lockPathLit) = []) :=
  ⟨rfl, by decide⟩

/-- Claim C6 amended: a candidate file whose content cannot be read yields no
content-based finding for that path — every rule that reads file content
produces nothing for it, and the run still terminates with a normal result (the
source read is an if-let with no failure path, embedded as a total function);
the one exception is the path-keyed lock-file rule of check_supply_chain, which
emits its Low finding regardless of readability, so for an unreadable candidate
that is not a lock file the run emits no finding at all for that path. -/
theorem unreadable_file_no_content_findings (files staged : List String)
    (fs : String → Option String) (diff p : String)
    (hu : fs p = none) (hd : p ≠ diffSentinel)
    (hl : lock_files.any (fun lf => strEndsWith p lf) = false) :
    ((check_injection_vulnerabilities files fs diff
        ++ check_xss_vulnerabilities files fs diff
        ++ check_supply_chain files fs diff).filter (fun i => i.file == p) = [])
    ∧ ((nextjs_security_run files staged fs diff).2.filter (fun i => i.file == p) = []) := by
  constructor
  · rw [List.filter_append, List.filter_append,
      check_injection_filter_unreadable fs diff p hu hd files,
      check_xss_filter_unreadable fs diff p hu hd files,
      check_supply_chain_filter_unreadable fs diff p hu hd hl files]
    rfl
  · rcases nextjs_run_issues files staged fs diff with h | ⟨fl, h⟩
    · rw [h]
      rfl
    · rw [h, List.filter_append, List.filter_append,
        check_injection_filter_unreadable fs diff p hu hd fl,
        check_xss_filter_unreadable fs diff p hu hd fl,
        check_supply_chain_filter_unreadable fs diff p hu hd hl fl]
      rfl

/-- Witness for the amended C6 at concrete inputs: one unreadable non-lock-file
candidate, empty diff. -/
theorem unreadable_file_no_content_findings_witness :
    ((check_injection_vulnerabilities [fileALit] readNone emptyStr
        ++ check_xss_vulnerabilities [fileALit] readNone emptyStr
        ++ check_supply_chain [fileALit] readNone emptyStr).filter
        (fun i => i.file == fileALit) = [])
    ∧ ((nextjs_security_run [fileALit] [] readNone emptyStr).2.filter
        (fun i => i.file == fileALit) = []) :=
  unreadable_file_no_content_findings [fileALit] [] readNone emptyStr fileALit rfl
    (by decide) (by decide)

/-! ## Claim C7 -/

/-- Claim C7: with an empty candidate file list and empty diff text (the degraded
result of a failed external retrieval), the scanners produce zero findings, the
gate decision is Pass, the exit code is zero, and the combined pre-commit run
succeeds, for every file system and every discarded auxiliary result. -/
theorem empty_inputs_yield_pass (fs : String → Option String)
    (cR nR iR : Except String Unit) :
    nextjs_security_run [] [] fs emptyStr = (Except.ok (), [])
    ∧ mainExitCode (nextjs_security_run [] [] fs emptyStr).1 = 0
    ∧ security_run [] [] emptyStr = (Except.ok (), false)
    ∧ pre_commit_run [] [] fs emptyStr cR nR iR = Except.ok () :=
  ⟨rfl, rfl, rfl, rfl⟩

/-! ## Claim C8 -/

/-- Claim C8: the engine is deterministic — two runs on byte-identical inputs (the
same candidate list, the same content for every path, the same diff text)
produce identical results, identical ordered findings lists, and the same exit
code. -/
theorem identical_inputs_identical_run (files staged : List String)
    (fs1 fs2 : String → Option String) (diff1 diff2 : String)
    (hfs : ∀ q, fs1 q = fs2 q) (hdiff : diff1 = diff2) :
    nextjs_security_run files staged fs1 diff1 = nextjs_security_run files staged fs2 diff2
    ∧ mainExitCode (nextjs_security_run files staged fs1 diff1).1
      = mainExitCode (nextjs_security_run files staged fs2 diff2).1 := by
  have h : fs1 = fs2 := funext hfs
  subst h
  subst hdiff
  exact ⟨rfl, rfl⟩

/-- Witness for C8 at concrete inputs. -/
theorem identical_inputs_identical_run_witness :
    nextjs_security_run [fileALit] [] readNone emptyStr
      = nextjs_security_run [fileALit] [] readNone emptyStr :=
  (identical_inputs_identical_run [fileALit] [] readNone readNone emptyStr emptyStr
    (fun _ => rfl) rfl).1

theorem resultIsOk_ok : resultIsOk (Except.ok ()) = true := rfl

theorem resultIsOk_error (m : String) : resultIsOk (Except.error m) = false := rfl

/-! ## Claim C9 -/

/-- Claim C9: the combined pre-commit run fails exactly when the basic security
check or the Next.js security check fails; the complexity, console and import
results are discarded (universally quantified here, they cannot change the
outcome), and the console check itself always returns success. -/
theorem pre_commit_fails_iff_security_or_nextjs (files staged : List String)
    (fs : String → Option String) (diff : String) (cR nR iR : Except String Unit) :
    (resultIsOk (pre_commit_run files staged fs diff cR nR iR) = false
      ↔ (resultIsOk (security_run (pre_commit_files files staged) staged diff).1 = false
        ∨ resultIsOk (nextjs_security_run
            (filter_files_by_extension (pre_commit_files files staged) tsJsExts)
            staged fs diff).1 = false))
    ∧ (∀ nfiles : List String, ∀ nfs : String → Option String,
        no_console_run nfiles nfs = Except.ok ()) := by
  constructor
  · by_cases he : (pre_commit_files files staged).isEmpty
    · have hf : files = [] := by
        by_cases h0 : files.isEmpty
        · exact List.isEmpty_iff.mp h0
        · unfold pre_commit_files at he
          rw [if_neg h0] at he
          exact absurd he h0
      subst hf
      have hs : staged = [] := by
        unfold pre_commit_files at he
        simp at he
        exact he
      subst hs
      have h1 : pre_commit_run [] [] fs diff cR nR iR = Except.ok () := rfl
      have h2 : security_run (pre_commit_files [] []) [] diff = (Except.ok (), false) := rfl
      have h3 : nextjs_security_run (filter_files_by_extension (pre_commit_files [] []) tsJsExts)
          [] fs diff = (Except.ok (), []) := rfl
      rw [h1, h2, h3]
      simp [resultIsOk]
    · unfold pre_commit_run
      rw [if_neg he]
      cases hs : resultIsOk (security_run (pre_commit_files files staged) staged diff).1 <;>
        cases hn : resultIsOk (nextjs_security_run
          (filter_files_by_extension (pre_commit_files files staged) tsJsExts)
          staged fs diff).1 <;>
        simp [hs, hn, resultIsOk_ok, resultIsOk_error]
  · intro nfiles nfs
    unfold no_console_run
    by_cases he : (filter_files_by_extension nfiles tsJsExts).isEmpty <;> simp [he]

/-! ## Claim C10 -/

/-- Claim C10: the basic security check removes every candidate whose path contains
a test or spec marker before scanning, and when every candidate is such a test
file the check returns success immediately without retrieving the staged diff —
so no diff rule is evaluated for a commit staging only test files. -/
theorem test_only_commits_skip_diff_rules (files staged : List String) (diff : String)
    (h : ∀ f ∈ security_candidate_files files staged, is_test_file f = true) :
    (∀ f, f ∈ security_scanned_files files staged
        ↔ (f ∈ security_candidate_files files staged ∧ is_test_file f = false))
    ∧ security_run files staged diff = (Except.ok (), false) := by
  constructor
  · intro f
    simp [security_scanned_files, List.mem_filter]
  · have hnil : security_scanned_files files staged = [] := by
      rw [security_scanned_files, List.filter_eq_nil_iff]
      intro f hf
      simp [h f hf]
    simp [security_run, hnil]

/-- Witness for C10 at concrete inputs: a commit staging only a test file passes
without the diff being examined, even though the diff holds a matching header. -/
theorem test_only_commits_skip_diff_rules_witness :
    security_run [testFileLit] [] awsHeaderDiff = (Except.ok (), false) :=
  (test_only_commits_skip_diff_rules [testFileLit] [] awsHeaderDiff (by decide)).2
